import Mathlib

/-!
Shallow embedding of `src/vimeo.js` (class `Vimeo`) and `src/constants.js`
from the millennius/vimeo.js repository.

JavaScript objects whose key sets matter are modelled as association lists
(`AList`), with property assignment `obj[k] = v` as `setKey` and property
read `obj[k]` as `getKey`.  JavaScript truthiness of optional strings
(`undefined` and `""` are falsy) is modelled by `truthy`.  The network and
the file system are inputs: `Env.fs` models `fs.statSync(file).size`
(`none` when the stat throws) and `Env.post` models the outcome of the
`Axios.post` intent-declaration call made by `upload` / `replace`.
-/

namespace VimeoJS

/-- A JavaScript value appearing in request parameter objects. -/
inductive Val
  | str (s : String)
  | nat (n : Nat)
deriving DecidableEq, Repr

/-- An object modelled as an association list from property name to `α`. -/
abbrev AList (α : Type) := List (String × α)

/-- Property read `obj[k]`: first binding of `k` wins. -/
def getKey {α : Type} (k : String) : AList α → Option α
  | [] => none
  | (k', v) :: rest => if k' = k then some v else getKey k rest

/-- Property assignment `obj[k] = v`: overwrite in place, else append. -/
def setKey {α : Type} (k : String) (v : α) : AList α → AList α
  | [] => [(k, v)]
  | (k', v') :: rest => if k' = k then (k', v) :: rest else (k', v') :: setKey k v rest

/-- JavaScript truthiness of an optional string: `undefined` and `""` are falsy. -/
def truthy : Option String → Bool
  | none => false
  | some s => s != ""

/-- `src/constants.js`: `VIMEO_HOSTNAME`. -/
def VIMEO_HOSTNAME : String := "api.vimeo.com"

/-- `src/constants.js`: `AUTH_ENDPOINTS.authorization`. -/
def authEndpointAuthorization : String := "/oauth/authorize"

/-- `src/constants.js`: `AUTH_ENDPOINTS.accessToken`. -/
def authEndpointAccessToken : String := "/oauth/access_token"

/-- `src/constants.js`: `AUTH_ENDPOINTS.clientCredentials`. -/
def authEndpointClientCredentials : String := "/oauth/authorize/client"

/-- The default headers installed by the constructor into `this._requestOptions.headers`. -/
def defaultRequestHeaders : AList String :=
  [("Accept", "application/vnd.vimeo.*+json;version=3.4"),
   ("User-Agent", "Vimeo.js/2.1.1")]

/-- The state of a `Vimeo` client instance: credential fields plus the
default-header object installed by the constructor. -/
structure Vimeo where
  _clientId : Option String
  _clientSecret : Option String
  _accessToken : Option String
  requestHeaders : AList String
deriving DecidableEq

/-- The constructor `new Vimeo(clientId, clientSecret, accessToken)`:
`this._accessToken` is only assigned when `accessToken` is truthy, and
`this._requestOptions.headers` is set to the fixed default-header object. -/
def mkVimeo (clientId clientSecret accessToken : Option String) : Vimeo :=
  { _clientId := clientId, _clientSecret := clientSecret,
    _accessToken := if truthy accessToken then accessToken else none,
    requestHeaders := defaultRequestHeaders }

/-- `setAccessToken(accessToken)`: unconditional assignment to `this._accessToken`. -/
def setAccessToken (c : Vimeo) (accessToken : Option String) : Vimeo :=
  { c with _accessToken := accessToken }

/-- The options object accepted by `request` / `_buildRequestOptions`.
`url`, `method` and `data` may be absent; `headers` absent is modelled as `[]`
(the code substitutes `{}` for absent headers, with the same meaning). -/
structure ReqOptions where
  url : Option String
  method : Option String
  headers : AList String
  data : Option Val
deriving DecidableEq

/-- The fully resolved options produced by `_buildRequestOptions`. -/
structure ResolvedOptions where
  url : Option String
  method : String
  headers : AList String
  data : Option Val
deriving DecidableEq

/-- The falsiness test `!requestOptions.headers[key]` on a header object:
true when the key is absent or bound to the empty string. -/
def headerFalsy (h : AList String) (k : String) : Bool :=
  match getKey k h with
  | none => true
  | some v => v == ""

/-- The loop `for key in this._requestOptions.headers` that copies each
default header into the request headers when the latter entry is falsy. -/
def applyDefaultHeaders (defaults h : AList String) : AList String :=
  defaults.foldl (fun acc kv => if headerFalsy acc kv.1 then setKey kv.1 kv.2 acc else acc) h

/-- `_buildRequestOptions(options)`: default the method to `"GET"` (via `||`,
so an empty-string method also defaults), merge the default headers in where
the caller's entry is falsy, attach the `Authorization` header (Bearer from
the access token, else Basic from the literal `clientId:clientSecret`
concatenation, no base64), and default `Content-Type` to JSON for mutating
methods lacking one. -/
def _buildRequestOptions (c : Vimeo) (options : ReqOptions) : ResolvedOptions :=
  let method := match options.method with
    | none => "GET"
    | some m => if m = "" then "GET" else m
  let h1 := applyDefaultHeaders c.requestHeaders options.headers
  let h2 :=
    if truthy c._accessToken then
      setKey "Authorization" ("Bearer " ++ c._accessToken.getD "") h1
    else if truthy c._clientId && truthy c._clientSecret then
      setKey "Authorization"
        ("Basic " ++ c._clientId.getD "" ++ ":" ++ c._clientSecret.getD "") h1
    else h1
  let h3 :=
    if (method ∈ ["POST", "PATCH", "PUT", "DELETE"]) && headerFalsy h2 "Content-Type" then
      setKey "Content-Type" "application/json" h2
    else h2
  { url := options.url, method := method, headers := h3, data := options.data }

/-- Derived from the conditional in `_buildRequestOptions`: the code attaches
the Bearer form exactly when the access token is truthy. -/
def attachesBearer (c : Vimeo) : Bool := truthy c._accessToken

/-- Derived from the conditional in `_buildRequestOptions`: the code attaches
the Basic form exactly when the access token is falsy and both client id and
client secret are truthy. -/
def attachesBasic (c : Vimeo) : Bool :=
  !truthy c._accessToken && (truthy c._clientId && truthy c._clientSecret)

/-- The argument of `request`: a bare URL string or an options object. -/
inductive RequestArg
  | str (s : String)
  | obj (o : ReqOptions)
deriving DecidableEq

/-- Outcome of `request` up to the point where the HTTP transport takes over:
either an exception propagates (the async function rejects), or an `Error`
value is returned, or the HTTP call is issued with the resolved options. -/
inductive RequestResult
  | threw (msg : String)
  | errValue (msg : String)
  | httpCall (ro : ResolvedOptions)
deriving DecidableEq

/-- `request(options)`.  When `options` is a string the code executes
`options.method = "GET"`; the file is an ES module, hence strict mode, and a
property assignment on a string primitive throws a `TypeError`, which the
async function surfaces as a rejection.  When `options` is an object without
a string `url`, an `Error` value is returned (not thrown).  Otherwise the
merged options are handed to the HTTP transport. -/
def request (c : Vimeo) (options : RequestArg) : RequestResult :=
  match options with
  | .str _ => .threw "TypeError: Cannot create property on a string primitive"
  | .obj o =>
    match o.url with
    | none => .errValue "You must provide an API url"
    | some _ => .httpCall (_buildRequestOptions c o)

/-- The `scope` argument of `buildAuthorizationEndpoint`: absent, a string,
or an array of strings. -/
inductive ScopeArg
  | undef
  | str (s : String)
  | arr (l : List String)
deriving DecidableEq

/-- JavaScript truthiness of the `scope` argument: `undefined` and `""` are
falsy; every array (even the empty one) is truthy. -/
def scopeTruthy : ScopeArg → Bool
  | .undef => false
  | .str s => s != ""
  | .arr _ => true

/-- The value assigned to `query.scope` by `buildAuthorizationEndpoint`:
`if (scope) { Array.isArray(scope) ? scope.join(" ") : scope } else "public"`. -/
def scopeParamValue (scope : ScopeArg) : String :=
  if scopeTruthy scope then
    match scope with
    | .arr l => String.intercalate " " l
    | .str s => s
    | .undef => "public"
  else "public"

/-- The query object assembled by `buildAuthorizationEndpoint` before
stringification: `response_type`, `client_id`, `redirect_uri`, then `scope`
(defaulting to `"public"`), then `state` only when truthy. -/
def authQuery (c : Vimeo) (redirectUri : String) (scope : ScopeArg)
    (state : Option String) : AList String :=
  let q : AList String :=
    [("response_type", "code"),
     ("client_id", c._clientId.getD ""),
     ("redirect_uri", redirectUri)]
  let q := setKey "scope" (scopeParamValue scope) q
  if truthy state then setKey "state" (state.getD "") q else q

/-- `querystring.stringify`, without percent-encoding (claims about parameter
values are stated on the query object, where encoding is irrelevant). -/
def qsStringify (q : AList String) : String :=
  String.intercalate "&" (q.map fun kv => kv.1 ++ "=" ++ kv.2)

/-- `buildAuthorizationEndpoint(redirectUri, scope, state)`. -/
def buildAuthorizationEndpoint (c : Vimeo) (redirectUri : String)
    (scope : ScopeArg) (state : Option String) : String :=
  "https://" ++ VIMEO_HOSTNAME ++ authEndpointAuthorization ++ "?" ++
    qsStringify (authQuery c redirectUri scope state)

/-- The `file` argument of `upload` / `replace`: a path string, or a
file-like object carrying `size` and `name` fields. -/
inductive FileArg
  | path (p : String)
  | fileLike (size : Nat) (name : String)
deriving DecidableEq

/-- The params object passed to `upload` / `replace`: the `upload` sub-object
(absent or an object), the `file_name` property, and all remaining
caller-supplied properties. -/
structure Params where
  upload : Option (AList Val)
  file_name : Option String
  extra : AList Val
deriving DecidableEq

/-- The empty params object `{}` substituted when the caller omitted params. -/
def emptyParams : Params := { upload := none, file_name := none, extra := [] }

/-- Size resolution: `fs.statSync(file).size` for a path (`none` models the
stat throwing), the object's `size` field otherwise. -/
def resolveSize (fs : String → Option Nat) : FileArg → Option Nat
  | .path p => fs p
  | .fileLike size _ => some size

/-- `path.basename` of Node, modelled for paths without trailing separators:
the component after the last `/`. -/
def basename (p : String) : String :=
  ((p.splitOn "/").getLast?).getD ""

/-- The `upload` sub-object of the intent-declaration response body. -/
structure UploadInfo where
  upload_link : String
deriving DecidableEq

/-- The intent-declaration response body (`response.data`): the video
resource `uri` and the `upload` descriptor. -/
structure AttemptData where
  uri : String
  upload : UploadInfo
deriving DecidableEq

/-- Outcome of the `Axios.post` intent-declaration call: the parsed response
data, or the error value caught by the `catch` block (its string rendering,
as concatenated into the reported message). -/
inductive PostResult
  | ok (d : AttemptData)
  | err (e : String)
deriving DecidableEq

/-- The environment of one `upload` / `replace` call: the file system seen by
`fs.statSync` and the outcome of the intent-declaration POST. -/
structure Env where
  fs : String → Option Nat
  post : PostResult

/-- The source wired into `new tus.Upload`: a read stream created from a path
(`fs.createReadStream(file)`), or the file object passed through. -/
inductive TusSource
  | readStream (p : String)
  | fileObject (size : Nat) (name : String)
deriving DecidableEq

/-- How `_performTusUpload` turns its `file` argument into the tus source. -/
def tusSourceOf : FileArg → TusSource
  | .path p => .readStream p
  | .fileLike size name => .fileObject size name

/-- The transfer handle built by `_performTusUpload`: the `tus.Upload`
constructor options, the `url` assigned afterwards, the resource URI its
`onSuccess` closure passes to the complete callback, and whether `start()`
was called before the handle was returned (the `upload.start()` line in the
source is commented out, and would in any case sit after `return upload`). -/
structure TusUpload (κ : Type) where
  source : TusSource
  endpoint : String
  uploadSize : Nat
  retryDelays : List Nat
  onErrorCb : κ
  onProgressCb : κ
  onSuccessCb : κ
  onSuccessUri : String
  url : String
  started : Bool
deriving DecidableEq

/-- `_performTusUpload(file, fileSize, attempt, completeCallback,
progressCallback, errorCallback)`. -/
def _performTusUpload {κ : Type} (file : FileArg) (fileSize : Nat) (attempt : AttemptData)
    (completeCallback progressCallback errorCallback : κ) : TusUpload κ :=
  { source := tusSourceOf file,
    endpoint := "none",
    uploadSize := fileSize,
    retryDelays := [0, 1000, 3000, 5000],
    onErrorCb := errorCallback,
    onProgressCb := progressCallback,
    onSuccessCb := completeCallback,
    onSuccessUri := attempt.uri,
    url := attempt.upload.upload_link,
    started := false }

/-- The upload-approach override applied to `params.upload`: when absent,
install `{ approach: "tus", size: fileSize }`; when present, overwrite just
its `approach` and `size` properties. -/
def normalizeUpload (fileSize : Nat) : Option (AList Val) → AList Val
  | none => [("approach", Val.str "tus"), ("size", Val.nat fileSize)]
  | some u => setKey "size" (Val.nat fileSize) (setKey "approach" (Val.str "tus") u)

/-- A record of the intent-declaration POST as issued: its URL, its body
(the orchestrated params) and the headers passed to `Axios.post`. -/
structure HttpCall where
  url : String
  params : Params
  headers : AList String
deriving DecidableEq

/-- The observable outcome of one `upload` / `replace` call: the returned
value (a transfer handle or `null`), the error-callback invocation (the
callback value and the message), and the POST issued, if any. -/
structure UploadOutcome (κ : Type) where
  result : Option (TusUpload κ)
  errorCall : Option (κ × String)
  httpPost : Option HttpCall
deriving DecidableEq

/-- The body of `upload` after argument normalization: stat the file (on
failure report `onError` and return null with no POST), force the upload
approach and size, POST the params to `/me/videos?field=uri,name,upload`
with the client's default headers, and on success hand the response data to
`_performTusUpload`; on POST failure report the wrapped message. -/
def uploadCore {κ : Type} (c : Vimeo) (env : Env) (file : FileArg) (params : Params)
    (completeCallback progressCallback errorCallback : κ) : UploadOutcome κ :=
  match resolveSize env.fs file with
  | none =>
    { result := none,
      errorCall := some (errorCallback, "Unable to locate file to upload."),
      httpPost := none }
  | some fileSize =>
    let params' : Params :=
      { params with upload := some (normalizeUpload fileSize params.upload) }
    let call : HttpCall :=
      { url := "/me/videos?field=uri,name,upload", params := params',
        headers := c.requestHeaders }
    match env.post with
    | .ok d =>
      { result := some (_performTusUpload file fileSize d
          completeCallback progressCallback errorCallback),
        errorCall := none,
        httpPost := some call }
    | .err e =>
      { result := none,
        errorCall := some (errorCallback, "Unable to initiate an upload. [" ++ e ++ "]"),
        httpPost := some call }

/-- The body of `replace` after argument normalization: like `uploadCore`,
but additionally attach `params.file_name` (basename of the path, or the
file object's `name`), POST to `videoUri + "/versions?fields=upload"`, and
overwrite `data.uri` with `videoUri` before building the transfer handle. -/
def replaceCore {κ : Type} (c : Vimeo) (env : Env) (file : FileArg) (videoUri : String)
    (params : Params) (completeCallback progressCallback errorCallback : κ) :
    UploadOutcome κ :=
  match resolveSize env.fs file with
  | none =>
    { result := none,
      errorCall := some (errorCallback, "Unable to locate file to upload."),
      httpPost := none }
  | some fileSize =>
    let params1 : Params :=
      { params with file_name := some (match file with
          | .path p => basename p
          | .fileLike _ name => name) }
    let params' : Params :=
      { params1 with upload := some (normalizeUpload fileSize params1.upload) }
    let call : HttpCall :=
      { url := videoUri ++ "/versions?fields=upload", params := params',
        headers := c.requestHeaders }
    match env.post with
    | .ok d =>
      let d' : AttemptData := { d with uri := videoUri }
      { result := some (_performTusUpload file fileSize d'
          completeCallback progressCallback errorCallback),
        errorCall := none,
        httpPost := some call }
    | .err e =>
      { result := none,
        errorCall := some (errorCallback, "Unable to initiate an upload. [" ++ e ++ "]"),
        httpPost := some call }

/-- The `params` positional argument of `upload` / `replace`: either a
params object or a function (the caller omitted params). -/
inductive ParamArg (κ : Type)
  | fn (f : κ)
  | obj (p : Params)
deriving DecidableEq

/-- `upload(file, params, completeCallback, progressCallback, errorCallback)`
including the arity normalization: when `params` is a function, shift the
callbacks left by one and default params to `{}`. -/
def upload {κ : Type} (c : Vimeo) (env : Env) (file : FileArg) (params : ParamArg κ)
    (completeCallback progressCallback errorCallback : κ) : UploadOutcome κ :=
  match params with
  | .fn f => uploadCore c env file emptyParams f completeCallback progressCallback
  | .obj p => uploadCore c env file p completeCallback progressCallback errorCallback

/-- `replace(file, videoUri, params, completeCallback, progressCallback,
errorCallback)` including the arity normalization at the third argument. -/
def replace {κ : Type} (c : Vimeo) (env : Env) (file : FileArg) (videoUri : String)
    (params : ParamArg κ) (completeCallback progressCallback errorCallback : κ) :
    UploadOutcome κ :=
  match params with
  | .fn f => replaceCore c env file videoUri emptyParams f completeCallback progressCallback
  | .obj p => replaceCore c env file videoUri p completeCallback progressCallback errorCallback

/-! ### Association-list lemmas -/

theorem getKey_setKey_self {α : Type} (k : String) (v : α) (l : AList α) :
    getKey k (setKey k v l) = some v := by
  induction l with
  | nil => simp [setKey, getKey]
  | cons hd tl ih =>
    obtain ⟨k', v'⟩ := hd
    by_cases h : k' = k
    · simp [setKey, getKey, h]
    · simp [setKey, getKey, h, ih]

theorem getKey_setKey_ne {α : Type} (k' k : String) (v : α) (l : AList α)
    (h : k' ≠ k) : getKey k' (setKey k v l) = getKey k' l := by
  induction l with
  | nil => simp [setKey, getKey, Ne.symm h]
  | cons hd tl ih =>
    obtain ⟨k0, v0⟩ := hd
    by_cases h0 : k0 = k
    · subst h0
      simp [setKey, getKey, Ne.symm h]
    · simp [setKey, getKey, h0, ih]

theorem getKey_normalizeUpload_approach (n : Nat) (u : Option (AList Val)) :
    getKey "approach" (normalizeUpload n u) = some (Val.str "tus") := by
  cases u with
  | none => simp [normalizeUpload, getKey]
  | some u =>
    rw [normalizeUpload, getKey_setKey_ne _ _ _ _ (by decide), getKey_setKey_self]

theorem getKey_normalizeUpload_size (n : Nat) (u : Option (AList Val)) :
    getKey "size" (normalizeUpload n u) = some (Val.nat n) := by
  cases u with
  | none => simp [normalizeUpload, getKey]
  | some u => rw [normalizeUpload, getKey_setKey_self]

theorem getKey_normalizeUpload_other (n : Nat) (u : Option (AList Val)) (k : String)
    (h1 : k ≠ "approach") (h2 : k ≠ "size") :
    getKey k (normalizeUpload n u) = getKey k (u.getD []) := by
  cases u with
  | none => simp [normalizeUpload, getKey, Ne.symm h1, Ne.symm h2]
  | some u =>
    rw [normalizeUpload, getKey_setKey_ne _ _ _ _ h2, getKey_setKey_ne _ _ _ _ h1]
    rfl

/-! ### Claim theorems -/

/-- C1: when `file` is a path that cannot be stat'ed, `upload` invokes the
error callback with the fixed message "Unable to locate file to upload.",
returns null, and issues no HTTP call. -/
theorem upload_missing_file {κ : Type} (c : Vimeo) (env : Env) (p : String)
    (params : Params) (f g e : κ) (hstat : env.fs p = none) :
    upload c env (FileArg.path p) (ParamArg.obj params) f g e =
      { result := none,
        errorCall := some (e, "Unable to locate file to upload."),
        httpPost := none } := by
  simp [upload, uploadCore, resolveSize, hstat]

/-- Witness for C1 at a concrete client, environment and path. -/
theorem upload_missing_file_witness :
    upload (mkVimeo none none none) ⟨fun _ => none, PostResult.err "boom"⟩
        (FileArg.path "movie.mp4") (ParamArg.obj emptyParams) 0 1 2 =
      { result := none,
        errorCall := some (2, "Unable to locate file to upload."),
        httpPost := none } :=
  upload_missing_file _ _ _ _ _ _ _ rfl

/-- C4: passing a function as the params argument of `upload` (resp. the
third argument of `replace`) shifts the callbacks left by one and defaults
params to the empty object, identically to the explicit-params call form. -/
theorem upload_replace_callback_shift {κ : Type} (c : Vimeo) (env : Env)
    (file : FileArg) (videoUri : String) (f g h e : κ) :
    upload c env file (ParamArg.fn f) g h e =
        upload c env file (ParamArg.obj emptyParams) f g h ∧
      replace c env file videoUri (ParamArg.fn f) g h e =
        replace c env file videoUri (ParamArg.obj emptyParams) f g h :=
  ⟨rfl, rfl⟩

/-- The intent-declaration POST recorded by `upload` once the size resolved:
its body is the caller's params with the `upload` sub-object normalized, and
its headers are the client's default headers. -/
theorem upload_httpPost_eq {κ : Type} (c : Vimeo) (env : Env) (file : FileArg)
    (params : Params) (f g e : κ) (n : Nat)
    (hsize : resolveSize env.fs file = some n) :
    (upload c env file (ParamArg.obj params) f g e).httpPost =
      some { url := "/me/videos?field=uri,name,upload",
             params := { params with upload := some (normalizeUpload n params.upload) },
             headers := c.requestHeaders } := by
  cases hp : env.post <;> simp [upload, uploadCore, hsize, hp]

/-- The intent-declaration POST recorded by `replace` once the size resolved:
its body additionally carries the resolved `file_name`. -/
theorem replace_httpPost_eq {κ : Type} (c : Vimeo) (env : Env) (file : FileArg)
    (videoUri : String) (params : Params) (f g e : κ) (n : Nat)
    (hsize : resolveSize env.fs file = some n) :
    (replace c env file videoUri (ParamArg.obj params) f g e).httpPost =
      some { url := videoUri ++ "/versions?fields=upload",
             params := { params with
               file_name := some (match file with
                 | .path p => basename p
                 | .fileLike _ name => name),
               upload := some (normalizeUpload n params.upload) },
             headers := c.requestHeaders } := by
  cases file with
  | path p =>
    simp only [resolveSize] at hsize
    cases hp : env.post <;> simp [replace, replaceCore, resolveSize, hsize, hp]
  | fileLike size name =>
    simp only [resolveSize, Option.some.injEq] at hsize
    cases hp : env.post <;> simp [replace, replaceCore, resolveSize, hsize, hp]

/-- C2: after orchestration (for `upload` and for `replace`), the POSTed
params carry `upload.approach = "tus"` and `upload.size = <resolved size>`,
and every other caller-supplied key inside `params.upload` is preserved,
whether `params.upload` pre-existed or was absent. -/
theorem upload_replace_params_override {κ : Type} (c : Vimeo) (env : Env)
    (file : FileArg) (videoUri : String) (params : Params) (f g e : κ) (n : Nat)
    (hsize : resolveSize env.fs file = some n) :
    (∃ call u, (upload c env file (ParamArg.obj params) f g e).httpPost = some call ∧
      call.params.upload = some u ∧
      getKey "approach" u = some (Val.str "tus") ∧
      getKey "size" u = some (Val.nat n) ∧
      ∀ k, k ≠ "approach" → k ≠ "size" →
        getKey k u = getKey k (params.upload.getD [])) ∧
    (∃ call u, (replace c env file videoUri (ParamArg.obj params) f g e).httpPost = some call ∧
      call.params.upload = some u ∧
      getKey "approach" u = some (Val.str "tus") ∧
      getKey "size" u = some (Val.nat n) ∧
      ∀ k, k ≠ "approach" → k ≠ "size" →
        getKey k u = getKey k (params.upload.getD [])) := by
  refine ⟨⟨_, normalizeUpload n params.upload, upload_httpPost_eq c env file params f g e n hsize,
      rfl, getKey_normalizeUpload_approach n _, getKey_normalizeUpload_size n _,
      fun k h1 h2 => getKey_normalizeUpload_other n _ k h1 h2⟩,
    ⟨_, normalizeUpload n params.upload,
      replace_httpPost_eq c env file videoUri params f g e n hsize,
      rfl, getKey_normalizeUpload_approach n _, getKey_normalizeUpload_size n _,
      fun k h1 h2 => getKey_normalizeUpload_other n _ k h1 h2⟩⟩

/-- Witness for C2: a file object of size 42 and a pre-existing upload
sub-object with an extra key and a stale approach, both overwritten keys
forced and the extra key preserved. -/
theorem upload_replace_params_override_witness :
    (∃ call u,
      (upload (mkVimeo none none none)
          ⟨fun _ => none, PostResult.ok ⟨"/videos/7", ⟨"https://up.example/1"⟩⟩⟩
          (FileArg.fileLike 42 "a.mp4")
          (ParamArg.obj ⟨some [("chunk", Val.nat 5), ("approach", Val.str "post")], none, []⟩)
          0 1 2).httpPost = some call ∧
      call.params.upload = some u ∧
      getKey "approach" u = some (Val.str "tus") ∧
      getKey "size" u = some (Val.nat 42) ∧
      ∀ k, k ≠ "approach" → k ≠ "size" →
        getKey k u = getKey k ((some [("chunk", Val.nat 5), ("approach", Val.str "post")] :
          Option (AList Val)).getD [])) :=
  (upload_replace_params_override (mkVimeo none none none)
    ⟨fun _ => none, PostResult.ok ⟨"/videos/7", ⟨"https://up.example/1"⟩⟩⟩
    (FileArg.fileLike 42 "a.mp4") "/videos/7"
    ⟨some [("chunk", Val.nat 5), ("approach", Val.str "post")], none, []⟩
    0 1 2 42 rfl).1

/-- C3: on a successful intent declaration, the handle returned by `upload`
and by `replace` targets the response's `upload.upload_link`, declares the
resolved file size, uses the retry schedule [0, 1000, 3000, 5000], and is
not started by the orchestrator. -/
theorem transfer_handle_fields {κ : Type} (c : Vimeo) (env : Env) (file : FileArg)
    (videoUri : String) (params : Params) (f g e : κ) (n : Nat) (d : AttemptData)
    (hsize : resolveSize env.fs file = some n) (hpost : env.post = PostResult.ok d) :
    (∃ h, (upload c env file (ParamArg.obj params) f g e).result = some h ∧
      h.url = d.upload.upload_link ∧ h.uploadSize = n ∧
      h.retryDelays = [0, 1000, 3000, 5000] ∧ h.started = false) ∧
    (∃ h, (replace c env file videoUri (ParamArg.obj params) f g e).result = some h ∧
      h.url = d.upload.upload_link ∧ h.uploadSize = n ∧
      h.retryDelays = [0, 1000, 3000, 5000] ∧ h.started = false) := by
  constructor
  · refine ⟨_performTusUpload file n d f g e, ?_, rfl, rfl, rfl, rfl⟩
    simp [upload, uploadCore, hsize, hpost]
  · refine ⟨_performTusUpload file n { d with uri := videoUri } f g e, ?_, rfl, rfl, rfl, rfl⟩
    simp [replace, replaceCore, hsize, hpost]

/-- Witness for C3 at a concrete environment and response. -/
theorem transfer_handle_fields_witness :
    (∃ h, (upload (mkVimeo none none none)
        ⟨fun _ => some 99, PostResult.ok ⟨"/videos/7", ⟨"https://up.example/1"⟩⟩⟩
        (FileArg.path "clip.mov") (ParamArg.obj emptyParams) 0 1 2).result = some h ∧
      h.url = "https://up.example/1" ∧ h.uploadSize = 99 ∧
      h.retryDelays = [0, 1000, 3000, 5000] ∧ h.started = false) :=
  ((transfer_handle_fields (mkVimeo none none none)
      ⟨fun _ => some 99, PostResult.ok ⟨"/videos/7", ⟨"https://up.example/1"⟩⟩⟩
      (FileArg.path "clip.mov") "/videos/7" emptyParams 0 1 2 99
      ⟨"/videos/7", ⟨"https://up.example/1"⟩⟩ rfl rfl).1)

/-- C5: `replace` POSTs params whose `file_name` is the basename of the path
(resp. the file object's `name`), and on a successful intent declaration the
returned handle's success closure passes `videoUri` as the resource URI. -/
theorem replace_file_name_and_uri {κ : Type} (c : Vimeo) (env : Env)
    (videoUri : String) (params : Params) (f g e : κ) :
    (∀ p n, env.fs p = some n →
      ∃ call, (replace c env (FileArg.path p) videoUri (ParamArg.obj params) f g e).httpPost =
          some call ∧
        call.params.file_name = some (basename p)) ∧
    (∀ size name,
      ∃ call, (replace c env (FileArg.fileLike size name) videoUri
            (ParamArg.obj params) f g e).httpPost = some call ∧
        call.params.file_name = some name) ∧
    (∀ file n d, resolveSize env.fs file = some n → env.post = PostResult.ok d →
      ∃ h, (replace c env file videoUri (ParamArg.obj params) f g e).result = some h ∧
        h.onSuccessUri = videoUri) := by
  refine ⟨?_, ?_, ?_⟩
  · intro p n hp
    exact ⟨_, replace_httpPost_eq c env (FileArg.path p) videoUri params f g e n hp, rfl⟩
  · intro size name
    exact ⟨_, replace_httpPost_eq c env (FileArg.fileLike size name) videoUri params
      f g e size rfl, rfl⟩
  · intro file n d hsize hpost
    refine ⟨_performTusUpload file n { d with uri := videoUri } f g e, ?_, rfl⟩
    simp [replace, replaceCore, hsize, hpost]

/-- Witness for C5: a path with a directory component; the POSTed
`file_name` is its basename and the handle's success URI is the video URI. -/
theorem replace_file_name_and_uri_witness :
    (∃ call, (replace (mkVimeo none none none)
        ⟨fun _ => some 7, PostResult.ok ⟨"/ignored", ⟨"https://up.example/2"⟩⟩⟩
        (FileArg.path "videos/raw/final.mp4") "/videos/55" (ParamArg.obj emptyParams)
        0 1 2).httpPost = some call ∧
      call.params.file_name = some (basename "videos/raw/final.mp4")) ∧
    (∃ h, (replace (mkVimeo none none none)
        ⟨fun _ => some 7, PostResult.ok ⟨"/ignored", ⟨"https://up.example/2"⟩⟩⟩
        (FileArg.path "videos/raw/final.mp4") "/videos/55" (ParamArg.obj emptyParams)
        0 1 2).result = some h ∧ h.onSuccessUri = "/videos/55") := by
  have h := replace_file_name_and_uri (mkVimeo none none none)
    ⟨fun _ => some 7, PostResult.ok ⟨"/ignored", ⟨"https://up.example/2"⟩⟩⟩
    "/videos/55" emptyParams 0 1 2
  exact ⟨h.1 "videos/raw/final.mp4" 7 rfl,
    h.2.2 (FileArg.path "videos/raw/final.mp4") 7 ⟨"/ignored", ⟨"https://up.example/2"⟩⟩ rfl rfl⟩

/-- C10: the intent-declaration POST issued by `upload` and by `replace`
carries exactly the client's default headers, with no `Authorization` and no
`Content-Type` entry, for every client state. -/
theorem upload_replace_post_headers {κ : Type}
    (clientId clientSecret accessToken : Option String) (env : Env) (file : FileArg)
    (videoUri : String) (params : Params) (f g e : κ) :
    (∀ call, (upload (mkVimeo clientId clientSecret accessToken) env file
          (ParamArg.obj params) f g e).httpPost = some call →
      call.headers = defaultRequestHeaders ∧
      getKey "Authorization" call.headers = none ∧
      getKey "Content-Type" call.headers = none) ∧
    (∀ call, (replace (mkVimeo clientId clientSecret accessToken) env file videoUri
          (ParamArg.obj params) f g e).httpPost = some call →
      call.headers = defaultRequestHeaders ∧
      getKey "Authorization" call.headers = none ∧
      getKey "Content-Type" call.headers = none) := by
  have hA : getKey "Authorization" defaultRequestHeaders = none := by decide
  have hC : getKey "Content-Type" defaultRequestHeaders = none := by decide
  constructor
  · intro call hcall
    cases hs : resolveSize env.fs file with
    | none => simp [upload, uploadCore, hs] at hcall
    | some n =>
      rw [upload_httpPost_eq _ _ _ _ _ _ _ n hs, Option.some.injEq] at hcall
      rw [← hcall]
      exact ⟨rfl, hA, hC⟩
  · intro call hcall
    cases hs : resolveSize env.fs file with
    | none =>
      cases file with
      | path p =>
        simp only [resolveSize] at hs
        simp [replace, replaceCore, resolveSize, hs] at hcall
      | fileLike size name => simp [resolveSize] at hs
    | some n =>
      rw [replace_httpPost_eq _ _ _ _ _ _ _ _ n hs, Option.some.injEq] at hcall
      rw [← hcall]
      exact ⟨rfl, hA, hC⟩

/-- Witness for C10: a client built with full credentials and a token still
POSTs only the two default headers. -/
theorem upload_replace_post_headers_witness :
    (∀ call, (upload (mkVimeo (some "id") (some "secret") (some "tok"))
          ⟨fun _ => some 3, PostResult.ok ⟨"/videos/9", ⟨"https://up.example/3"⟩⟩⟩
          (FileArg.path "a.mp4") (ParamArg.obj emptyParams) 0 1 2).httpPost = some call →
      call.headers = defaultRequestHeaders ∧
      getKey "Authorization" call.headers = none ∧
      getKey "Content-Type" call.headers = none) ∧
    getKey "Authorization"
      ((upload (mkVimeo (some "id") (some "secret") (some "tok"))
        ⟨fun _ => some 3, PostResult.ok ⟨"/videos/9", ⟨"https://up.example/3"⟩⟩⟩
        (FileArg.path "a.mp4") (ParamArg.obj emptyParams) 0 1 2).httpPost.getD
          ⟨"", emptyParams, []⟩).headers = none := by
  have h := upload_replace_post_headers (some "id") (some "secret") (some "tok")
    ⟨fun _ => some 3, PostResult.ok ⟨"/videos/9", ⟨"https://up.example/3"⟩⟩⟩
    (FileArg.path "a.mp4") "/videos/9" emptyParams 0 1 2
  exact ⟨h.1, by decide⟩

/-- C6: evaluation of `request` at a bare URL string.  The module is strict
mode, so `options.method = "GET"` on the string primitive throws a TypeError;
the call is NOT equivalent to `request({url: s, method: "GET"})`, which
issues the HTTP call — contradicting the function's own doc comment. -/
theorem request_string_coercion_bug :
    request (mkVimeo none none none) (RequestArg.str "some/path") =
      RequestResult.threw "TypeError: Cannot create property on a string primitive" ∧
    request (mkVimeo none none none)
        (RequestArg.obj { url := some "some/path", method := some "GET",
                          headers := [], data := none }) =
      RequestResult.httpCall (_buildRequestOptions (mkVimeo none none none)
        { url := some "some/path", method := some "GET", headers := [], data := none }) ∧
    request (mkVimeo none none none) (RequestArg.str "some/path") ≠
      request (mkVimeo none none none)
        (RequestArg.obj { url := some "some/path", method := some "GET",
                          headers := [], data := none }) := by
  refine ⟨rfl, rfl, ?_⟩
  decide

/-- C7: an options object without a string `url` makes `request` return the
Error value "You must provide an API url" (no HTTP call, nothing thrown),
and this is the only path on which `request` returns an error value. -/
theorem request_missing_url (c : Vimeo) (o : ReqOptions) (hurl : o.url = none) :
    request c (RequestArg.obj o) = RequestResult.errValue "You must provide an API url" ∧
    ∀ (a : RequestArg) (m : String), request c a = RequestResult.errValue m →
      ∃ o', a = RequestArg.obj o' ∧ o'.url = none ∧ m = "You must provide an API url" := by
  constructor
  · simp [request, hurl]
  · intro a m h
    cases a with
    | str s => simp [request] at h
    | obj o' =>
      cases ho : o'.url with
      | none =>
        refine ⟨o', rfl, ho, ?_⟩
        simp [request, ho] at h
        exact h.symm
      | some u => simp [request, ho] at h

/-- Witness for C7 at the empty options object. -/
theorem request_missing_url_witness :
    request (mkVimeo none none none) (RequestArg.obj ⟨none, none, [], none⟩) =
      RequestResult.errValue "You must provide an API url" :=
  (request_missing_url (mkVimeo none none none) ⟨none, none, [], none⟩ rfl).1

/-- C8: at request-build time a truthy access token yields
`Authorization: Bearer <token>`; otherwise truthy client id and secret yield
`Authorization: Basic <clientId>:<clientSecret>` (literal concatenation, no
base64); and the two attachment conditions are mutually exclusive. -/
theorem auth_header_selection (c : Vimeo) (options : ReqOptions) :
    (∀ t, c._accessToken = some t → t ≠ "" →
      getKey "Authorization" (_buildRequestOptions c options).headers =
        some ("Bearer " ++ t)) ∧
    (∀ i s, attachesBearer c = false → c._clientId = some i → i ≠ "" →
      c._clientSecret = some s → s ≠ "" →
      getKey "Authorization" (_buildRequestOptions c options).headers =
        some ("Basic " ++ i ++ ":" ++ s)) ∧
    (attachesBearer c = true → attachesBasic c = false) ∧
    (attachesBasic c = true → attachesBearer c = false) := by
  refine ⟨?_, ?_, ?_, ?_⟩
  · intro t ht hne
    have hb : truthy (some t) = true := by simp [truthy, hne]
    simp only [_buildRequestOptions, ht, hb, if_true, Option.getD_some]
    split
    · rw [getKey_setKey_ne "Authorization" "Content-Type" _ _ (by decide),
        getKey_setKey_self]
    · rw [getKey_setKey_self]
  · intro i s hbear hi hine hs hsne
    have hb : truthy c._accessToken = false := hbear
    have hi' : truthy (some i) = true := by simp [truthy, hine]
    have hs' : truthy (some s) = true := by simp [truthy, hsne]
    simp only [_buildRequestOptions, hb, hi, hs, hi', hs', Bool.false_eq_true,
      if_false, Bool.and_self, if_true, Option.getD_some]
    split
    · rw [getKey_setKey_ne "Authorization" "Content-Type" _ _ (by decide),
        getKey_setKey_self]
    · rw [getKey_setKey_self]
  · intro h
    simp [attachesBasic, attachesBearer] at h ⊢
    simp [h]
  · intro h
    simp [attachesBasic, attachesBearer] at h ⊢
    simp [h.1]

/-- Witness for C8: a client holding both a token and full credentials gets
the Bearer header; a client with credentials only gets the literal Basic
header. -/
theorem auth_header_selection_witness :
    getKey "Authorization"
        (_buildRequestOptions (mkVimeo (some "id") (some "secret") (some "tok"))
          ⟨some "/me", none, [], none⟩).headers = some ("Bearer " ++ "tok") ∧
    getKey "Authorization"
        (_buildRequestOptions (mkVimeo (some "id") (some "secret") none)
          ⟨some "/me", none, [], none⟩).headers =
      some ("Basic " ++ "id" ++ ":" ++ "secret") := by
  constructor
  · exact (auth_header_selection (mkVimeo (some "id") (some "secret") (some "tok"))
      ⟨some "/me", none, [], none⟩).1 "tok" rfl (by decide)
  · exact (auth_header_selection (mkVimeo (some "id") (some "secret") none)
      ⟨some "/me", none, [], none⟩).2.1 "id" "secret" rfl rfl (by decide) rfl (by decide)

/-- C9 counterexample: for the string scope `""` the produced query carries
`scope = "public"`, not the string itself — JavaScript treats the empty
string as falsy, so the `"public"` default branch is taken. -/
theorem authorization_scope_empty_string :
    getKey "scope" (authQuery (mkVimeo none none none) "https://example.com/cb"
        (ScopeArg.str "") none) = some "public" ∧
    getKey "scope" (authQuery (mkVimeo none none none) "https://example.com/cb"
        (ScopeArg.str "") none) ≠ some "" := by
  decide

/-- C9 (amended): the produced URL is the authorize endpoint carrying the
assembled query; its `scope` parameter is the space-join for an array scope,
the string itself for a non-empty string scope, and `"public"` when the
scope is omitted or is the empty string; a `state` parameter is present iff
`state` is defined and non-empty, and then equals it. -/
theorem authorization_endpoint_query (c : Vimeo) (redirectUri : String)
    (scope : ScopeArg) (state : Option String) :
    buildAuthorizationEndpoint c redirectUri scope state =
      "https://" ++ VIMEO_HOSTNAME ++ authEndpointAuthorization ++ "?" ++
        qsStringify (authQuery c redirectUri scope state) ∧
    (∀ l, scope = ScopeArg.arr l →
      getKey "scope" (authQuery c redirectUri scope state) =
        some (String.intercalate " " l)) ∧
    (∀ s, scope = ScopeArg.str s → s ≠ "" →
      getKey "scope" (authQuery c redirectUri scope state) = some s) ∧
    (scope = ScopeArg.undef ∨ scope = ScopeArg.str "" →
      getKey "scope" (authQuery c redirectUri scope state) = some "public") ∧
    ((getKey "state" (authQuery c redirectUri scope state)).isSome = truthy state) ∧
    (∀ st, state = some st → st ≠ "" →
      getKey "state" (authQuery c redirectUri scope state) = some st) := by
  have hscope : ∀ v : String,
      getKey "scope" (setKey "scope" v
        [("response_type", "code"), ("client_id", c._clientId.getD ""),
         ("redirect_uri", redirectUri)]) = some v := by
    intro v
    rw [getKey_setKey_self]
  have hgetScope : getKey "scope" (authQuery c redirectUri scope state) =
      some (scopeParamValue scope) := by
    rw [authQuery]
    split
    · rw [getKey_setKey_ne "scope" "state" _ _ (by decide)]
      exact hscope _
    · exact hscope _
  refine ⟨rfl, ?_, ?_, ?_, ?_, ?_⟩
  · intro l hl
    subst hl
    rw [hgetScope]
    simp [scopeParamValue, scopeTruthy]
  · intro s hs hne
    subst hs
    rw [hgetScope]
    simp [scopeParamValue, scopeTruthy, hne]
  · intro h
    rw [hgetScope]
    rcases h with h | h <;> subst h <;> simp [scopeParamValue, scopeTruthy]
  · rw [authQuery]
    split
    · rw [getKey_setKey_self]
      simp_all
    · rw [getKey_setKey_ne "state" "scope" _ _ (by decide)]
      simp_all [getKey]
  · intro st hst hne
    subst hst
    have ht : truthy (some st) = true := by simp [truthy, hne]
    rw [authQuery]
    simp only [ht, if_true]
    rw [getKey_setKey_self]
    simp

/-- Witness for C9's amended theorem: an array scope is space-joined and a
non-empty state is carried through. -/
theorem authorization_endpoint_query_witness :
    getKey "scope" (authQuery (mkVimeo (some "cid") none none)
        "https://example.com/cb" (ScopeArg.arr ["public", "upload"]) (some "xyz")) =
      some (String.intercalate " " ["public", "upload"]) ∧
    getKey "state" (authQuery (mkVimeo (some "cid") none none)
        "https://example.com/cb" (ScopeArg.arr ["public", "upload"]) (some "xyz")) =
      some "xyz" := by
  have h := authorization_endpoint_query (mkVimeo (some "cid") none none)
    "https://example.com/cb" (ScopeArg.arr ["public", "upload"]) (some "xyz")
  exact ⟨h.2.1 ["public", "upload"] rfl, h.2.2.2.2.2 "xyz" rfl (by decide)⟩

end VimeoJS
